import Mathlib

/-!
Verification of the CC0 world generator's core: the compliance validator
`validate_world` (src/generate.py) and the chain-log decoder
`_parse_cast_generation_output` (src/web_server.py), shallowly embedded.

Documents are Python dicts in the source; here each dict shape is a
structure whose `Option` fields model key presence (`none` = key absent),
plus an opaque `extra` association list for the keys the validator never
reads.  Python's `d.get(k, default)` becomes `Option.getD`, and Python
truthiness of a string value (`if d.get(k):`) is `truthyStr`.
-/

namespace CC0

/-- Python truthiness of an optional string value: `some s` survives only
when `s` is non-empty, mirroring `if d.get(k):` on a string field. -/
def truthyStr : Option String → Option String
  | none => none
  | some s => if s = "" then none else some s

/-- A character or faction entry of the world bible: `char.get("id")`,
`char.get("name")`, `char.get("evidence_id")`. -/
structure Entity where
  id : Option String
  name : Option String
  evidence_id : Option String
  extra : List (String × String)
  deriving DecidableEq

/-- An entry of `asset_clearances` / `assets_used`: `a.get("evidence_id")`
and `asset.get("risk_flags", [])`. -/
structure Asset where
  evidence_id : Option String
  risk_flags : Option (List String)
  extra : List (String × String)
  deriving DecidableEq

/-- The world bible dict: the validator reads `characters` and `factions`. -/
structure WorldBible where
  characters : Option (List Entity)
  factions : Option (List Entity)
  extra : List (String × String)
  deriving DecidableEq

/-- The compliance manifest dict.  `confidence_corrected` models the
`_confidence_corrected` key the validator may set. -/
structure Manifest where
  evidence_used : Option (List String)
  asset_clearances : Option (List Asset)
  assets_used : Option (List Asset)
  unsuppressed_flags : Option (List String)
  risk_flags : Option (List String)
  commercial_confidence : Option String
  confidence_corrected : Option Bool
  extra : List (String × String)
  deriving DecidableEq

/-- The top-level document dict: `refusal` carries opaque content, only its
presence is tested by the validator. -/
structure Document where
  refusal : Option (List (String × String))
  world_bible : Option WorldBible
  compliance_manifest : Option Manifest
  extra : List (String × String)
  deriving DecidableEq

/-- The empty dict `{}`, the default of `data.get("world_bible", {})`. -/
def emptyWorldBible : WorldBible := ⟨none, none, []⟩

/-- The empty dict `{}`, the default of `data.get("compliance_manifest", {})`. -/
def emptyManifest : Manifest := ⟨none, none, none, none, none, none, none, []⟩

/-- Python falsiness of the world-bible dict (`if not wb:`): no key present. -/
def WorldBible.isEmptyDict (wb : WorldBible) : Bool :=
  wb.characters.isNone && wb.factions.isNone && wb.extra.isEmpty

/-- Python falsiness of the manifest dict (`if not cm:`): no key present. -/
def Manifest.isEmptyDict (cm : Manifest) : Bool :=
  cm.evidence_used.isNone && cm.asset_clearances.isNone && cm.assets_used.isNone &&
  cm.unsuppressed_flags.isNone && cm.risk_flags.isNone &&
  cm.commercial_confidence.isNone && cm.confidence_corrected.isNone && cm.extra.isEmpty

/-- Label of a character/faction in violation messages:
`char.get("id") or char.get("name", "?")`. -/
def entityLabel (e : Entity) : String :=
  match truthyStr e.id with
  | some i => i
  | none => e.name.getD "?"

/-- The invariant-1 message `f"{kind} '{label}' missing evidence_id"`. -/
def evMissingMsg (kind label : String) : String :=
  kind ++ " '" ++ label ++ "' missing evidence_id"

/-- One character/faction's invariant-1 check (generate.py lines 106-113). -/
def evPresenceCheck (kind : String) (e : Entity) : Option String :=
  if (truthyStr e.evidence_id).isSome then none
  else some (evMissingMsg kind (entityLabel e))

/-- Invariant 1 over a character or faction list. -/
def evPresenceErrors (kind : String) (es : List Entity) : List String :=
  es.filterMap (evPresenceCheck kind)

/-- `[a.get("evidence_id") for a in assets if a.get("evidence_id")]`. -/
def assetEvidenceIds (assets : List Asset) : List String :=
  assets.filterMap fun a => truthyStr a.evidence_id

/-- The declared evidence ids (generate.py lines 117-123): prefer
`evidence_used`; when that is absent or empty take the first non-empty of
`asset_clearances` then `assets_used` and extract each asset's evidence id. -/
def declaredEvidence (cm : Manifest) : List String :=
  let raw0 := cm.evidence_used.getD []
  let ac := cm.asset_clearances.getD []
  if ac ≠ [] ∧ raw0 = [] then assetEvidenceIds ac
  else
    let au := cm.assets_used.getD []
    if au ≠ [] ∧ raw0 = [] then assetEvidenceIds au
    else raw0

/-- The invariant-2 message
`f"{kind} '{label}' evidence_id '{eid}' not in compliance_manifest evidence"`. -/
def crossRefMsg (kind label eid : String) : String :=
  kind ++ " '" ++ label ++ "' evidence_id '" ++ eid ++
  "' not in compliance_manifest evidence"

/-- One character/faction's invariant-2 check (generate.py lines 124-139). -/
def crossRefCheck (kind : String) (declared : List String) (e : Entity) : Option String :=
  match truthyStr e.evidence_id with
  | some eid => if eid ∈ declared then none
                else some (crossRefMsg kind (entityLabel e) eid)
  | none => none

/-- Invariant 2 over a character or faction list. -/
def crossRefErrors (kind : String) (es : List Entity) (declared : List String) :
    List String :=
  es.filterMap (crossRefCheck kind declared)

/-- Python `f.endswith(suffix)` on the character list of the string. -/
def strEndsWith (s suf : String) : Bool :=
  suf.data.isSuffixOf s.data

/-- Python `s.startswith(p)` on the character list of the string. -/
def strStartsWith (s p : String) : Bool :=
  p.data.isPrefixOf s.data

/-- The gathered flag list (generate.py lines 143-147): manifest-level flags
(`unsuppressed_flags` when the key is present, else `risk_flags`, else `[]`),
then per-asset `risk_flags` from `asset_clearances` when that key is present,
else from `assets_used`, appended in order when not already present. -/
def gatherFlags (cm : Manifest) : List String :=
  let base := cm.unsuppressed_flags.getD (cm.risk_flags.getD [])
  let assets := cm.asset_clearances.getD (cm.assets_used.getD [])
  assets.foldl
    (fun flags a =>
      (a.risk_flags.getD []).foldl
        (fun fs f => if f ∈ fs then fs else fs ++ [f]) flags)
    base

/-- `bool(cm.get("asset_clearances") or cm.get("assets_used") or declared)`
(generate.py line 152). -/
def hasClearances (cm : Manifest) (declared : List String) : Bool :=
  !(cm.asset_clearances.getD []).isEmpty || !(cm.assets_used.getD []).isEmpty ||
  !declared.isEmpty

/-- The recomputed confidence (generate.py lines 148-158). -/
def expectedConfidence (cm : Manifest) : String :=
  let flags := gatherFlags cm
  let high_flags := flags.filter fun f => strEndsWith f ":high"
  let medium_flags := flags.filter fun f => strEndsWith f ":medium"
  let has_clearances := hasClearances cm (declaredEvidence cm)
  if !high_flags.isEmpty || !has_clearances then "low"
  else if !medium_flags.isEmpty then "medium"
  else "high"

/-- Python `repr` of a list of plain strings, as an f-string renders `{flags}`. -/
def pyReprStrList (l : List String) : String :=
  "[" ++ String.intercalate ", " (l.map fun s => "'" ++ s ++ "'") ++ "]"

/-- How an f-string renders the stated confidence: a missing key prints `None`. -/
def statedRepr : Option String → String
  | none => "None"
  | some s => s

/-- The invariant-3 mismatch message (generate.py lines 162-165). -/
def mismatchMsg (stated : Option String) (expected : String) (flags : List String) :
    String :=
  "commercial_confidence mismatch: model said '" ++ statedRepr stated ++
  "', computed '" ++ expected ++ "' from risk flags " ++ pyReprStrList flags

/-- The errors of the two pure per-entity rules, in source order: character
then faction presence checks, then character then faction cross-references. -/
def pureCheckErrors (wb : WorldBible) (cm : Manifest) : List String :=
  evPresenceErrors "Character" (wb.characters.getD []) ++
  evPresenceErrors "Faction" (wb.factions.getD []) ++
  crossRefErrors "Character" (wb.characters.getD []) (declaredEvidence cm) ++
  crossRefErrors "Faction" (wb.factions.getD []) (declaredEvidence cm)

/-- The refusal-path errors (generate.py lines 87-92). -/
def refusalErrors (data : Document) : List String :=
  (if data.world_bible.isSome then ["Refusal output must not contain 'world_bible'"]
   else []) ++
  (if data.compliance_manifest.isSome then
     ["Refusal output must not contain 'compliance_manifest'"]
   else [])

/-- The auto-corrected manifest (generate.py lines 167-168). -/
def correctedManifest (cm : Manifest) : Manifest :=
  { cm with commercial_confidence := some (expectedConfidence cm),
            confidence_corrected := some true }

/-- The document with its manifest auto-corrected in place. -/
def correctedDoc (data : Document) (cm : Manifest) : Document :=
  { data with compliance_manifest := some (correctedManifest cm) }

/-- `validate_world` (generate.py lines 80-170), returning the violation list
and the possibly auto-corrected document (the source mutates the manifest in
place; here the mutation is explicit state passing). -/
def validate_world (data : Document) : List String × Document :=
  if data.refusal.isSome then (refusalErrors data, data)
  else if (data.world_bible.getD emptyWorldBible).isEmptyDict then
    (["Missing world_bible"], data)
  else if (data.compliance_manifest.getD emptyManifest).isEmptyDict then
    (["Missing compliance_manifest"], data)
  else if (data.compliance_manifest.getD emptyManifest).commercial_confidence ≠
       some (expectedConfidence (data.compliance_manifest.getD emptyManifest)) then
    (pureCheckErrors (data.world_bible.getD emptyWorldBible)
        (data.compliance_manifest.getD emptyManifest) ++
      [mismatchMsg (data.compliance_manifest.getD emptyManifest).commercial_confidence
        (expectedConfidence (data.compliance_manifest.getD emptyManifest))
        (gatherFlags (data.compliance_manifest.getD emptyManifest))],
     correctedDoc data (data.compliance_manifest.getD emptyManifest))
  else
    (pureCheckErrors (data.world_bible.getD emptyWorldBible)
      (data.compliance_manifest.getD emptyManifest), data)

/-!
The chain-log decoder `_parse_cast_generation_output` (web_server.py lines
606-706).  All character scanning is done on `String.data` with structural
recursion, mirroring the source's per-character loops; `pyStripL` is Python's
`str.strip()` (ASCII whitespace), `pyStripCharsL c` is `str.strip('"')`.
-/

/-- Python `str.strip()` whitespace characters. -/
def pyWSChars : List Char := [' ', '\t', '\n', '\r', '\x0b', '\x0c']

/-- Python `str.strip()` on a character list. -/
def pyStripL (cs : List Char) : List Char :=
  ((cs.dropWhile pyWSChars.contains).reverse.dropWhile pyWSChars.contains).reverse

/-- Python `str.strip()`. -/
def pyStrip (s : String) : String := String.mk (pyStripL s.data)

/-- Python `str.strip(chars)` on a character list. -/
def pyStripCharsL (cs : List Char) (l : List Char) : List Char :=
  ((l.dropWhile cs.contains).reverse.dropWhile cs.contains).reverse

/-- State of the field tokenizer `_tokenise`: emitted tokens, current field,
bracket depth, inside-quotes flag. -/
structure TokState where
  tokens : List String
  cur : List Char
  depth : Int
  in_str : Bool

/-- One character of `_tokenise` (web_server.py lines 619-641): quotes toggle
the string flag only at depth 0, brackets and parens count depth, a comma at
depth 0 outside quotes ends the current field (stripped). -/
def tokeniseStep (st : TokState) (ch : Char) : TokState :=
  if ch == '"' && st.depth == 0 then
    { st with in_str := !st.in_str, cur := st.cur ++ [ch] }
  else if st.in_str then { st with cur := st.cur ++ [ch] }
  else if ch == '(' || ch == '[' then
    { st with depth := st.depth + 1, cur := st.cur ++ [ch] }
  else if ch == ')' || ch == ']' then
    { st with depth := st.depth - 1, cur := st.cur ++ [ch] }
  else if ch == ',' && st.depth == 0 then
    { st with tokens := st.tokens ++ [String.mk (pyStripL st.cur)], cur := [] }
  else { st with cur := st.cur ++ [ch] }

/-- `_tokenise` (web_server.py lines 619-644): a trailing non-empty field is
also emitted. -/
def tokenise (s : String) : List String :=
  let st := s.data.foldl tokeniseStep ⟨[], [], 0, false⟩
  if st.cur.isEmpty then st.tokens else st.tokens ++ [String.mk (pyStripL st.cur)]

/-- State of the top-level tuple splitter: finished tuple strings, current
tuple characters, bracket depth. -/
structure SplitState where
  tuples : List String
  cur : List Char
  depth : Int

/-- One character of the top-level split (web_server.py lines 654-671): a
closer that returns the depth to 0 flushes the current tuple; depth-0 commas
are discarded separators, and other depth-0 characters are dropped. -/
def splitTuplesStep (st : SplitState) (ch : Char) : SplitState :=
  if ch == '(' || ch == '[' then
    { st with depth := st.depth + 1, cur := st.cur ++ [ch] }
  else if ch == ')' || ch == ']' then
    if st.depth - 1 == 0 then
      { tuples := st.tuples ++ [String.mk (pyStripL (st.cur ++ [ch]))],
        cur := [], depth := st.depth - 1 }
    else { st with depth := st.depth - 1, cur := st.cur ++ [ch] }
  else if ch == ',' && st.depth == 0 then st
  else if st.depth > 0 then { st with cur := st.cur ++ [ch] }
  else st

/-- The top-level tuple substrings of the bracket-stripped input; an
unfinished trailing tuple is dropped, as in the source. -/
def tupleStrings (inner : String) : List String :=
  (inner.data.foldl splitTuplesStep ⟨[], [], 0⟩).tuples

/-- Strip one layer of outer brackets (web_server.py lines 647-651). -/
def stripOuterBrackets (raw : String) : String :=
  let s1 := if strStartsWith raw "[" then String.mk (raw.data.drop 1) else raw
  if strEndsWith s1 "]" then String.mk s1.data.dropLast else s1

/-- Python `s.split(",")`: every comma splits, empty pieces kept. -/
def splitOnCommaAux (acc : List Char) : List Char → List (List Char)
  | [] => [acc.reverse]
  | c :: rest =>
    if c == ',' then acc.reverse :: splitOnCommaAux [] rest
    else splitOnCommaAux (c :: acc) rest

/-- Field 5, the universes string array (web_server.py lines 683-686): strip,
drop one layer of brackets, split on commas, strip whitespace then quotes per
element, drop elements that are empty before unquoting. -/
def parseUniverses (field5 : String) : List String :=
  let ur := pyStripL field5.data
  let ur := if ur.head? == some '[' && ur.getLast? == some ']'
            then ur.drop 1 |>.dropLast else ur
  (splitOnCommaAux [] ur).filterMap fun u =>
    if (pyStripL u).isEmpty then none
    else some (String.mk (pyStripCharsL ['"'] (pyStripL u)))

/-- Python `int(s)` digit part with single underscores between digits. -/
def digitsValAux (acc : Nat) : List Char → Option Nat
  | [] => some acc
  | '_' :: c :: rest =>
    if c.isDigit then digitsValAux (acc * 10 + (c.toNat - 48)) rest else none
  | c :: rest =>
    if c.isDigit then digitsValAux (acc * 10 + (c.toNat - 48)) rest else none

/-- Python `int(s)` digit part: non-empty, starts with a digit. -/
def digitsVal : List Char → Option Nat
  | [] => none
  | c :: rest => if c.isDigit then digitsValAux (c.toNat - 48) rest else none

/-- Python `int(str)` on ASCII decimal text: surrounding whitespace stripped,
one optional sign, then digits (underscore grouping allowed); anything else
raises, modelled as `none`. -/
def parsePyInt (s : String) : Option Int :=
  match pyStripL s.data with
  | '+' :: rest => (digitsVal rest).map fun n => (n : Int)
  | '-' :: rest => (digitsVal rest).map fun n => -(n : Int)
  | rest => (digitsVal rest).map fun n => (n : Int)

/-- `conf_map.get(conf_val, str(conf_val))` (web_server.py lines 617, 700). -/
def confMap (conf_val : Int) : String :=
  if conf_val == 0 then "low"
  else if conf_val == 1 then "medium"
  else if conf_val == 2 then "high"
  else toString conf_val

/-- One decoded generation record (web_server.py lines 693-703). -/
structure GenRecord where
  token_id : String
  generator_address : String
  world_bible_hash : String
  manifest_hash : String
  ipfs_cid : String
  universes_used : List String
  commercial_confidence : String
  block_height : String
  timestamp : String
  deriving DecidableEq

/-- A tuple substring with its enclosing parens removed when both present. -/
def stripTupleParens (ts : String) : String :=
  if strStartsWith ts "(" && strEndsWith ts ")"
  then String.mk (ts.data.drop 1).dropLast else ts

/-- The tokenized fields of one tuple substring. -/
def tupleFields (ts : String) : List String := tokenise (stripTupleParens ts)

/-- Decode one tuple substring (web_server.py lines 674-704): fewer than 10
fields skips the record; field 6 parses as an int with default 0. -/
def parseTuple (ts : String) : Option GenRecord :=
  let fields := tupleFields ts
  if fields.length < 10 then none
  else
    let conf_val := (parsePyInt (fields.getD 6 "")).getD 0
    some
      { token_id := pyStrip (fields.getD 0 "")
        generator_address := pyStrip (fields.getD 1 "")
        world_bible_hash := pyStrip (fields.getD 2 "")
        manifest_hash := pyStrip (fields.getD 3 "")
        ipfs_cid := String.mk (pyStripCharsL ['"'] (pyStripL (fields.getD 4 "").data))
        universes_used := parseUniverses (fields.getD 5 "")
        commercial_confidence := confMap conf_val
        block_height := if 8 < fields.length then pyStrip (fields.getD 8 "") else ""
        timestamp := if 9 < fields.length then pyStrip (fields.getD 9 "") else "" }

/-- `_parse_cast_generation_output` (web_server.py lines 606-706): strip the
input, return `[]` on empty or literal `[]`, otherwise strip one layer of
outer brackets, split into tuple substrings and decode each, skipping the
unparseable ones. -/
def parse_cast_generation_output (stdout : String) : List GenRecord :=
  let raw := pyStrip stdout
  if raw = "" ∨ raw = "[]" then []
  else (tupleStrings (stripOuterBrackets raw)).filterMap parseTuple

/-!
Helper lemmas about the violation message strings: their character-list
decompositions, first and last characters (used to tell the four message
families apart for exact-count claims), and injectivity in the label.
-/

theorem evMissingMsg_data (k L : String) :
    (evMissingMsg k L).data =
      ((k.data ++ " '".data) ++ L.data) ++ "' missing evidence_id".data := by
  simp only [evMissingMsg, String.data_append]

theorem crossRefMsg_data (k L E : String) :
    (crossRefMsg k L E).data =
      ((((k.data ++ " '".data) ++ L.data) ++ "' evidence_id '".data) ++ E.data) ++
        "' not in compliance_manifest evidence".data := by
  simp only [crossRefMsg, String.data_append]

theorem mismatchMsg_data (st : Option String) (ex : String) (fl : List String) :
    (mismatchMsg st ex fl).data =
      (((("commercial_confidence mismatch: model said '".data ++ (statedRepr st).data) ++
        "', computed '".data) ++ ex.data) ++ "' from risk flags ".data) ++
        (pyReprStrList fl).data := by
  simp only [mismatchMsg, String.data_append]

theorem head?_append_left {c : Char} {l t : List Char} (h : l.head? = some c) :
    (l ++ t).head? = some c := by
  cases l with
  | nil => cases h
  | cons a l => simpa using h

theorem evMissingMsg_head (k L : String) {c : Char} {cs : List Char}
    (hk : k.data = c :: cs) : (evMissingMsg k L).data.head? = some c := by
  rw [evMissingMsg_data]
  exact head?_append_left (head?_append_left (head?_append_left (by rw [hk]; rfl)))

theorem crossRefMsg_head (k L E : String) {c : Char} {cs : List Char}
    (hk : k.data = c :: cs) : (crossRefMsg k L E).data.head? = some c := by
  rw [crossRefMsg_data]
  exact head?_append_left (head?_append_left (head?_append_left
    (head?_append_left (head?_append_left (by rw [hk]; rfl)))))

theorem mismatchMsg_head (st : Option String) (ex : String) (fl : List String) :
    (mismatchMsg st ex fl).data.head? = some 'c' := by
  rw [mismatchMsg_data]
  exact head?_append_left (head?_append_left (head?_append_left
    (head?_append_left (head?_append_left rfl))))

theorem evMissingMsg_last (k L : String) :
    (evMissingMsg k L).data.getLast? = some 'd' := by
  rw [evMissingMsg_data, List.getLast?_append_of_ne_nil _ (by decide)]
  decide

theorem crossRefMsg_last (k L E : String) :
    (crossRefMsg k L E).data.getLast? = some 'e' := by
  rw [crossRefMsg_data, List.getLast?_append_of_ne_nil _ (by decide)]
  decide

theorem str_ne_of_head {s t : String} (h : s.data.head? ≠ t.data.head?) : s ≠ t :=
  fun he => h (by rw [he])

theorem str_ne_of_last {s t : String} (h : s.data.getLast? ≠ t.data.getLast?) : s ≠ t :=
  fun he => h (by rw [he])

theorem evMissingMsg_inj {k L L' : String}
    (h : evMissingMsg k L = evMissingMsg k L') : L = L' := by
  have hd := congrArg String.data h
  rw [evMissingMsg_data, evMissingMsg_data] at hd
  exact String.ext (List.append_cancel_left (List.append_cancel_right hd))

/-- Every invariant-1 violation is an `evMissingMsg kind` message. -/
theorem mem_evPresenceErrors {kind s : String} {es : List Entity}
    (h : s ∈ evPresenceErrors kind es) : ∃ L, s = evMissingMsg kind L := by
  obtain ⟨e, -, he⟩ := List.mem_filterMap.mp h
  unfold evPresenceCheck at he
  by_cases ht : (truthyStr e.evidence_id).isSome
  · simp [ht] at he
  · simp only [ht, if_false, Option.some.injEq, Bool.false_eq_true] at he
    exact ⟨entityLabel e, he.symm⟩

/-- Every invariant-2 violation is a `crossRefMsg kind` message. -/
theorem mem_crossRefErrors {kind s : String} {es : List Entity} {declared : List String}
    (h : s ∈ crossRefErrors kind es declared) : ∃ L E, s = crossRefMsg kind L E := by
  obtain ⟨e, -, he⟩ := List.mem_filterMap.mp h
  unfold crossRefCheck at he
  cases ht : truthyStr e.evidence_id with
  | none => rw [ht] at he; cases he
  | some eid =>
    rw [ht] at he
    by_cases hd : eid ∈ declared
    · simp [hd] at he
    · simp only [hd, if_false, Option.some.injEq, Bool.false_eq_true] at he
      exact ⟨entityLabel e, eid, he.symm⟩

/-- Counting one message in a `filterMap` output counts the producing items. -/
theorem count_filterMap_msg {α : Type} (f : α → Option String) (b : String)
    (l : List α) :
    (l.filterMap f).count b = (l.filter fun a => f a == some b).length := by
  induction l with
  | nil => rfl
  | cons a t ih =>
    cases hfa : f a with
    | none => simpa [List.filterMap_cons, hfa, List.filter_cons] using ih
    | some c =>
      by_cases hc : c = b
      · subst hc
        simp [List.filterMap_cons, hfa, List.filter_cons, List.count_cons, ih]
      · simp [List.filterMap_cons, hfa, List.filter_cons, List.count_cons, hc, ih]

/-- A list with no occurrence of `b` counts `b` zero times. -/
theorem count_eq_zero_of_all_ne {l : List String} {b : String}
    (h : ∀ s ∈ l, s ≠ b) : l.count b = 0 :=
  List.count_eq_zero.mpr fun hm => h b hm rfl

/-- The invariant-1 count over one entity list, phrased on the entities:
one violation per entity lacking a truthy evidence id and labelled `L`. -/
theorem count_evPresenceErrors (kind : String) (es : List Entity) (L : String) :
    (evPresenceErrors kind es).count (evMissingMsg kind L) =
      (es.filter fun e =>
        !(truthyStr e.evidence_id).isSome && (entityLabel e == L)).length := by
  rw [evPresenceErrors, count_filterMap_msg]
  congr 1
  apply List.filter_congr
  intro e _
  unfold evPresenceCheck
  by_cases ht : (truthyStr e.evidence_id).isSome
  · simp [ht]
  · by_cases hL : entityLabel e = L
    · simp [ht, hL]
    · simp only [ht, if_false, Bool.false_eq_true, Bool.not_false, Bool.true_and]
      have h1 : (some (evMissingMsg kind (entityLabel e)) ==
          some (evMissingMsg kind L)) = false := by
        simp only [beq_eq_false_iff_ne, ne_eq, Option.some.injEq]
        exact fun hc => hL (evMissingMsg_inj hc)
      have h2 : (entityLabel e == L) = false := by
        simpa [beq_eq_false_iff_ne] using hL
      rw [h1, h2]

/-- Is a violation string the confidence-mismatch violation (it alone starts
with this prefix; the other rules' messages start with an upper-case word)? -/
def isConfidenceMismatch (s : String) : Bool :=
  strStartsWith s "commercial_confidence mismatch"

theorem isConfidenceMismatch_false_of_head {s : String} {c : Char}
    (h : s.data.head? = some c) (hc : c ≠ 'c') : isConfidenceMismatch s = false := by
  unfold isConfidenceMismatch strStartsWith
  cases hs : s.data with
  | nil => rw [hs] at h; cases h
  | cons a t =>
    rw [hs] at h
    injection h with h
    subst h
    show List.isPrefixOf ('c' :: "ommercial_confidence mismatch".data) (a :: t) = false
    have hne : ('c' == a) = false := beq_eq_false_iff_ne.mpr fun he => hc he.symm
    simp [List.isPrefixOf, hne]

theorem isConfidenceMismatch_mismatchMsg (st : Option String) (ex : String)
    (fl : List String) : isConfidenceMismatch (mismatchMsg st ex fl) = true := by
  unfold isConfidenceMismatch strStartsWith
  rw [List.isPrefixOf_iff_prefix, mismatchMsg_data]
  have h : "commercial_confidence mismatch: model said '".data =
      "commercial_confidence mismatch".data ++ ": model said '".data := rfl
  rw [h]
  simp only [List.append_assoc]
  exact List.prefix_append _ _

/-!
Branch equations of `validate_world`, and the frame predicates used by the
mutation claim: a validated document may differ from its input only in the
manifest's `commercial_confidence` and `_confidence_corrected` fields.
-/

theorem validate_world_refusal {d : Document} (h : d.refusal.isSome = true) :
    validate_world d = (refusalErrors d, d) := by
  simp [validate_world, h]

theorem validate_world_missing_wb {d : Document} (h : d.refusal = none)
    (hw : (d.world_bible.getD emptyWorldBible).isEmptyDict = true) :
    validate_world d = (["Missing world_bible"], d) := by
  simp [validate_world, h, hw]

theorem validate_world_missing_cm {d : Document} (h : d.refusal = none)
    (hw : (d.world_bible.getD emptyWorldBible).isEmptyDict = false)
    (hc : (d.compliance_manifest.getD emptyManifest).isEmptyDict = true) :
    validate_world d = (["Missing compliance_manifest"], d) := by
  simp [validate_world, h, hw, hc]

theorem validate_world_world {d : Document} {wb : WorldBible} {cm : Manifest}
    (h : d.refusal = none) (h2 : d.world_bible = some wb)
    (h3 : d.compliance_manifest = some cm)
    (hw : wb.isEmptyDict = false) (hc : cm.isEmptyDict = false) :
    validate_world d =
      (pureCheckErrors wb cm ++
        (if cm.commercial_confidence ≠ some (expectedConfidence cm)
         then [mismatchMsg cm.commercial_confidence (expectedConfidence cm)
                 (gatherFlags cm)]
         else []),
       if cm.commercial_confidence ≠ some (expectedConfidence cm)
       then correctedDoc d cm else d) := by
  by_cases hm : cm.commercial_confidence ≠ some (expectedConfidence cm)
  · simp [validate_world, h, h2, h3, hw, hc, hm]
  · simp [validate_world, h, h2, h3, hw, hc, hm]

/-- The manifest fields the validator must never touch. -/
def manifestFrameOK (m m' : Manifest) : Prop :=
  m'.evidence_used = m.evidence_used ∧ m'.asset_clearances = m.asset_clearances ∧
  m'.assets_used = m.assets_used ∧ m'.unsuppressed_flags = m.unsuppressed_flags ∧
  m'.risk_flags = m.risk_flags ∧ m'.extra = m.extra

/-- The document fields the validator must never touch: everything except the
manifest's confidence field and correction marker. -/
def docFrameOK (d d' : Document) : Prop :=
  d'.refusal = d.refusal ∧ d'.world_bible = d.world_bible ∧ d'.extra = d.extra ∧
  (d.compliance_manifest = none → d'.compliance_manifest = none) ∧
  (∀ m, d.compliance_manifest = some m →
    ∃ m', d'.compliance_manifest = some m' ∧ manifestFrameOK m m')

theorem manifestFrameOK_refl (m : Manifest) : manifestFrameOK m m :=
  ⟨rfl, rfl, rfl, rfl, rfl, rfl⟩

theorem docFrameOK_refl (d : Document) : docFrameOK d d :=
  ⟨rfl, rfl, rfl, fun h => h, fun m hm => ⟨m, hm, manifestFrameOK_refl m⟩⟩

theorem docFrameOK_corrected (d : Document) (m : Manifest)
    (hm : d.compliance_manifest = some m) : docFrameOK d (correctedDoc d m) := by
  refine ⟨rfl, rfl, rfl, ?_, ?_⟩
  · intro h; rw [hm] at h; cases h
  · intro m0 hm0
    rw [hm] at hm0
    injection hm0 with hm0
    subst hm0
    exact ⟨correctedManifest m, rfl, rfl, rfl, rfl, rfl, rfl, rfl⟩

/-- The frame property, for every document: `validate_world` changes nothing
but (possibly) the manifest's confidence field and correction marker. -/
theorem validate_world_frame (d : Document) : docFrameOK d (validate_world d).2 := by
  by_cases hr : d.refusal.isSome = true
  · rw [validate_world_refusal hr]; exact docFrameOK_refl d
  · have h : d.refusal = none := by
      cases hrr : d.refusal with
      | none => rfl
      | some v => rw [hrr] at hr; simp at hr
    by_cases hw : (d.world_bible.getD emptyWorldBible).isEmptyDict = true
    · rw [validate_world_missing_wb h hw]; exact docFrameOK_refl d
    · have hw' : (d.world_bible.getD emptyWorldBible).isEmptyDict = false := by
        simpa using hw
      by_cases hc : (d.compliance_manifest.getD emptyManifest).isEmptyDict = true
      · rw [validate_world_missing_cm h hw' hc]; exact docFrameOK_refl d
      · have hc' : (d.compliance_manifest.getD emptyManifest).isEmptyDict = false := by
          simpa using hc
        cases hcm : d.compliance_manifest with
        | none =>
          rw [hcm] at hc'
          simp [emptyManifest, Manifest.isEmptyDict] at hc'
        | some m =>
          cases hwb : d.world_bible with
          | none =>
            rw [hwb] at hw'
            simp [emptyWorldBible, WorldBible.isEmptyDict] at hw'
          | some wb =>
            rw [hcm] at hc'
            rw [hwb] at hw'
            simp only [Option.getD_some] at hc' hw'
            rw [validate_world_world h hwb hcm hw' hc']
            show docFrameOK d
              (if m.commercial_confidence ≠ some (expectedConfidence m)
               then correctedDoc d m else d)
            by_cases hm : m.commercial_confidence ≠ some (expectedConfidence m)
            · rw [if_pos hm]
              exact docFrameOK_corrected d m hcm
            · rw [if_neg hm]
              exact docFrameOK_refl d

/-- The pure per-entity checks never produce a confidence-mismatch message:
their messages start with `Character` or `Faction`, not `commercial_…`. -/
theorem pure_no_mismatch {wb : WorldBible} {cm : Manifest} :
    ∀ s ∈ pureCheckErrors wb cm, isConfidenceMismatch s = false := by
  intro s hs
  unfold pureCheckErrors at hs
  rcases List.mem_append.mp hs with h123 | h4
  · rcases List.mem_append.mp h123 with h12 | h3
    · rcases List.mem_append.mp h12 with h1 | h2
      · obtain ⟨L, rfl⟩ := mem_evPresenceErrors h1
        exact isConfidenceMismatch_false_of_head (evMissingMsg_head _ _ rfl) (by decide)
      · obtain ⟨L, rfl⟩ := mem_evPresenceErrors h2
        exact isConfidenceMismatch_false_of_head (evMissingMsg_head _ _ rfl) (by decide)
    · obtain ⟨L, E, rfl⟩ := mem_crossRefErrors h3
      exact isConfidenceMismatch_false_of_head (crossRefMsg_head _ _ _ rfl) (by decide)
  · obtain ⟨L, E, rfl⟩ := mem_crossRefErrors h4
    exact isConfidenceMismatch_false_of_head (crossRefMsg_head _ _ _ rfl) (by decide)

/-- The refusal rule never produces a confidence-mismatch message. -/
theorem refusal_no_mismatch {d : Document} :
    ∀ s ∈ refusalErrors d, isConfidenceMismatch s = false := by
  intro s hs
  unfold refusalErrors at hs
  rcases List.mem_append.mp hs with h | h
  · by_cases hb : d.world_bible.isSome = true
    · simp only [hb, if_true, List.mem_singleton] at h
      subst h; decide
    · simp only [Bool.not_eq_true] at hb
      simp [hb] at h
  · by_cases hb : d.compliance_manifest.isSome = true
    · simp only [hb, if_true, List.mem_singleton] at h
      subst h; decide
    · simp only [Bool.not_eq_true] at hb
      simp [hb] at h

/-- Auto-correction changes no field the recomputation reads. -/
theorem expectedConfidence_corrected (m : Manifest) :
    expectedConfidence (correctedManifest m) = expectedConfidence m := rfl

theorem filter_mismatch_nil {l : List String}
    (h : ∀ s ∈ l, isConfidenceMismatch s = false) :
    l.filter (fun s => isConfidenceMismatch s) = [] :=
  List.filter_eq_nil_iff.mpr (by simpa using h)

/-- The claim's "no clearance evidence exists at all": empty declared set and
neither asset list present non-empty. -/
abbrev noClearance (cm : Manifest) : Prop :=
  declaredEvidence cm = [] ∧ cm.asset_clearances.getD [] = [] ∧
  cm.assets_used.getD [] = []

theorem highFilter_iff (cm : Manifest) (suf : String) :
    (!((gatherFlags cm).filter fun f => strEndsWith f suf).isEmpty) = true ↔
      ∃ f ∈ gatherFlags cm, strEndsWith f suf = true := by
  rw [Bool.not_eq_true', List.isEmpty_eq_false_iff_exists_mem]
  constructor
  · rintro ⟨f, hf⟩
    obtain ⟨h1, h2⟩ := List.mem_filter.mp hf
    exact ⟨f, h1, h2⟩
  · rintro ⟨f, h1, h2⟩
    exact ⟨f, List.mem_filter.mpr ⟨h1, h2⟩⟩

theorem hasClearances_false_iff (cm : Manifest) :
    (!hasClearances cm (declaredEvidence cm)) = true ↔ noClearance cm := by
  constructor
  · intro h
    have h' : hasClearances cm (declaredEvidence cm) = false := by simpa using h
    unfold hasClearances at h'
    simp only [Bool.or_eq_false_iff] at h'
    obtain ⟨⟨hac, hau⟩, hd⟩ := h'
    exact ⟨List.isEmpty_iff.mp (by simpa using hd),
           List.isEmpty_iff.mp (by simpa using hac),
           List.isEmpty_iff.mp (by simpa using hau)⟩
  · rintro ⟨hd, hac, hau⟩
    simp [hasClearances, hd, hac, hau]

/-- C1: for a non-refusal world document with both sections present, the
expected confidence follows strict precedence over the gathered flag set —
any `:high` flag or a complete absence of clearance evidence gives `low`,
else any `:medium` flag gives `medium`, else `high`; a `:high` flag forces
`low` regardless of medium flags; and the validated document's manifest
always carries exactly this computed confidence. -/
theorem C1_confidence_precedence (d : Document) (wb : WorldBible) (cm : Manifest)
    (h1 : d.refusal = none) (h2 : d.world_bible = some wb)
    (h3 : d.compliance_manifest = some cm)
    (h4 : wb.isEmptyDict = false) (h5 : cm.isEmptyDict = false) :
    (expectedConfidence cm =
      if (∃ f ∈ gatherFlags cm, strEndsWith f ":high" = true) ∨ noClearance cm
      then "low"
      else if ∃ f ∈ gatherFlags cm, strEndsWith f ":medium" = true then "medium"
      else "high") ∧
    (∀ f ∈ gatherFlags cm, strEndsWith f ":high" = true →
      expectedConfidence cm = "low") ∧
    (∀ cm2, (validate_world d).2.compliance_manifest = some cm2 →
      cm2.commercial_confidence = some (expectedConfidence cm)) := by
  have hiff1 : ((!((gatherFlags cm).filter fun f => strEndsWith f ":high").isEmpty) ||
      (!hasClearances cm (declaredEvidence cm))) = true ↔
      (∃ f ∈ gatherFlags cm, strEndsWith f ":high" = true) ∨ noClearance cm := by
    rw [Bool.or_eq_true]
    exact or_congr (highFilter_iff cm ":high") (hasClearances_false_iff cm)
  have hiff2 : (!((gatherFlags cm).filter fun f => strEndsWith f ":medium").isEmpty)
      = true ↔ ∃ f ∈ gatherFlags cm, strEndsWith f ":medium" = true :=
    highFilter_iff cm ":medium"
  refine ⟨?_, ?_, ?_⟩
  · show (if (!((gatherFlags cm).filter fun f => strEndsWith f ":high").isEmpty) ||
        (!hasClearances cm (declaredEvidence cm)) then "low"
      else if !((gatherFlags cm).filter fun f => strEndsWith f ":medium").isEmpty
      then "medium" else "high") = _
    exact if_congr hiff1 rfl (if_congr hiff2 rfl rfl)
  · intro f hf he
    show (if (!((gatherFlags cm).filter fun f => strEndsWith f ":high").isEmpty) ||
        (!hasClearances cm (declaredEvidence cm)) then "low"
      else if !((gatherFlags cm).filter fun f => strEndsWith f ":medium").isEmpty
      then "medium" else "high") = "low"
    have : (!((gatherFlags cm).filter fun f => strEndsWith f ":high").isEmpty) = true :=
      (highFilter_iff cm ":high").mpr ⟨f, hf, he⟩
    rw [this]
    rfl
  · intro cm2 hcm2
    rw [validate_world_world h1 h2 h3 h4 h5] at hcm2
    by_cases hm : cm.commercial_confidence ≠ some (expectedConfidence cm)
    · rw [if_pos hm, if_pos hm] at hcm2
      have h' : some (correctedManifest cm) = some cm2 := hcm2
      injection h' with h'
      rw [← h']
      rfl
    · rw [if_neg hm, if_neg hm] at hcm2
      have h' : d.compliance_manifest = some cm2 := hcm2
      rw [h3] at h'
      injection h' with h'
      subst h'
      simpa using hm

/-- C2: on a confidence mismatch the validator appends exactly one violation
(the mismatch message, describing stated and computed values and the flags),
overwrites the manifest's confidence with the computed value and sets the
auto-correction marker; and for every document this is the only mutation —
every field except the manifest's confidence and marker is unchanged. -/
theorem C2_autocorrect_only_mutation :
    (∀ d wb cm, d.refusal = none → d.world_bible = some wb →
      d.compliance_manifest = some cm → wb.isEmptyDict = false →
      cm.isEmptyDict = false →
      cm.commercial_confidence ≠ some (expectedConfidence cm) →
      (validate_world d).1 = pureCheckErrors wb cm ++
        [mismatchMsg cm.commercial_confidence (expectedConfidence cm)
          (gatherFlags cm)] ∧
      ((validate_world d).1.filter fun s => isConfidenceMismatch s) =
        [mismatchMsg cm.commercial_confidence (expectedConfidence cm)
          (gatherFlags cm)] ∧
      (validate_world d).2 =
        { d with compliance_manifest := some (correctedManifest cm) } ∧
      correctedManifest cm =
        { cm with commercial_confidence := some (expectedConfidence cm),
                  confidence_corrected := some true }) ∧
    (∀ d, docFrameOK d (validate_world d).2) := by
  constructor
  · intro d wb cm h1 h2 h3 h4 h5 hm
    rw [validate_world_world h1 h2 h3 h4 h5]
    rw [if_pos hm, if_pos hm]
    refine ⟨rfl, ?_, rfl, rfl⟩
    show ((pureCheckErrors wb cm ++
      [mismatchMsg cm.commercial_confidence (expectedConfidence cm)
        (gatherFlags cm)]).filter fun s => isConfidenceMismatch s) = _
    rw [List.filter_append, filter_mismatch_nil pure_no_mismatch]
    simp [isConfidenceMismatch_mismatchMsg]
  · exact validate_world_frame

/-- C3: validation is idempotent — running `validate_world` on the document
a first pass returned leaves it unchanged, and the second pass's violation
list contains no confidence-mismatch violation (the correction sticks). -/
theorem C3_idempotent (d : Document) :
    (validate_world ((validate_world d).2)).2 = (validate_world d).2 ∧
    ((validate_world ((validate_world d).2)).1.filter
      fun s => isConfidenceMismatch s) = [] := by
  by_cases hr : d.refusal.isSome = true
  · rw [validate_world_refusal hr, validate_world_refusal hr]
    exact ⟨rfl, filter_mismatch_nil refusal_no_mismatch⟩
  · have h : d.refusal = none := by
      cases hrr : d.refusal with
      | none => rfl
      | some v => rw [hrr] at hr; simp at hr
    by_cases hw : (d.world_bible.getD emptyWorldBible).isEmptyDict = true
    · rw [validate_world_missing_wb h hw, validate_world_missing_wb h hw]
      refine ⟨rfl, ?_⟩
      show (["Missing world_bible"].filter fun s => isConfidenceMismatch s) = []
      decide
    · have hw' : (d.world_bible.getD emptyWorldBible).isEmptyDict = false := by
        simpa using hw
      by_cases hc : (d.compliance_manifest.getD emptyManifest).isEmptyDict = true
      · rw [validate_world_missing_cm h hw' hc, validate_world_missing_cm h hw' hc]
        refine ⟨rfl, ?_⟩
        show (["Missing compliance_manifest"].filter fun s => isConfidenceMismatch s) = []
        decide
      · have hc' : (d.compliance_manifest.getD emptyManifest).isEmptyDict = false := by
          simpa using hc
        cases hcm : d.compliance_manifest with
        | none =>
          rw [hcm] at hc'
          simp [emptyManifest, Manifest.isEmptyDict] at hc'
        | some m =>
          cases hwb : d.world_bible with
          | none =>
            rw [hwb] at hw'
            simp [emptyWorldBible, WorldBible.isEmptyDict] at hw'
          | some wb =>
            rw [hcm] at hc'
            rw [hwb] at hw'
            simp only [Option.getD_some] at hc' hw'
            rw [validate_world_world h hwb hcm hw' hc']
            by_cases hm : m.commercial_confidence ≠ some (expectedConfidence m)
            · rw [if_pos hm, if_pos hm]
              show (validate_world (correctedDoc d m)).2 = correctedDoc d m ∧ _
              have e1 : (correctedDoc d m).refusal = none := h
              have e2 : (correctedDoc d m).world_bible = some wb := hwb
              have e3 : (correctedDoc d m).compliance_manifest =
                  some (correctedManifest m) := rfl
              have e5 : (correctedManifest m).isEmptyDict = false := by
                simp [correctedManifest, Manifest.isEmptyDict]
              rw [validate_world_world e1 e2 e3 hw' e5]
              have hnm : ¬((correctedManifest m).commercial_confidence ≠
                  some (expectedConfidence (correctedManifest m))) := by
                rw [expectedConfidence_corrected]
                exact fun hne => hne rfl
              rw [if_neg hnm, if_neg hnm]
              exact ⟨rfl, by
                simp only [List.append_nil]
                exact filter_mismatch_nil pure_no_mismatch⟩
            · rw [if_neg hm, if_neg hm]
              show (validate_world d).2 = d ∧ _
              rw [validate_world_world h hwb hcm hw' hc']
              rw [if_neg hm, if_neg hm]
              exact ⟨rfl, by
                simp only [List.append_nil]
                exact filter_mismatch_nil pure_no_mismatch⟩

/-- C7: a refusal document gets one violation per forbidden key present,
each mentioning that key, no further rule runs, the document is never
mutated, and a refusal with neither forbidden key validates cleanly. -/
theorem C7_refusal_shape_exclusivity (d : Document) (h : d.refusal.isSome = true) :
    (validate_world d).1 =
      (if d.world_bible.isSome
       then ["Refusal output must not contain 'world_bible'"] else []) ++
      (if d.compliance_manifest.isSome
       then ["Refusal output must not contain 'compliance_manifest'"] else []) ∧
    (validate_world d).2 = d ∧
    (d.world_bible = none → d.compliance_manifest = none →
      (validate_world d).1 = []) := by
  rw [validate_world_refusal h]
  refine ⟨rfl, rfl, ?_⟩
  intro hwb hcm
  simp [refusalErrors, hwb, hcm]

/-- C8: a non-refusal document with a missing world bible (or a missing
manifest, the world bible being present and non-empty) yields exactly the
single fatal violation naming the missing section and is not mutated. -/
theorem C8_missing_sections (d : Document) (h : d.refusal = none) :
    (d.world_bible = none → validate_world d = (["Missing world_bible"], d)) ∧
    (∀ wb, d.world_bible = some wb → wb.isEmptyDict = false →
      d.compliance_manifest = none →
      validate_world d = (["Missing compliance_manifest"], d)) := by
  constructor
  · intro hw
    apply validate_world_missing_wb h
    rw [hw]
    rfl
  · intro wb hwb hne hcm
    apply validate_world_missing_cm h
    · rw [hwb]
      simpa using hne
    · rw [hcm]
      rfl

/-- C10: the flag-gathering fallbacks are decided by key absence, not
emptiness — `unsuppressed_flags` present-but-empty means `risk_flags` cannot
contribute, `asset_clearances` present-but-empty means no per-asset flags are
ever appended — while the cross-reference rule's declared-evidence fallback
(first-non-empty-wins) still consults `assets_used` on the same document. -/
theorem C10_key_presence_fallbacks :
    (∀ cm rf, cm.unsuppressed_flags = some ([] : List String) →
      gatherFlags cm = gatherFlags { cm with risk_flags := rf }) ∧
    (∀ cm, cm.asset_clearances = some ([] : List Asset) →
      gatherFlags cm = cm.unsuppressed_flags.getD (cm.risk_flags.getD [])) ∧
    (∀ cm, cm.asset_clearances = some ([] : List Asset) →
      cm.evidence_used.getD [] = [] → cm.assets_used.getD [] ≠ [] →
      declaredEvidence cm = assetEvidenceIds (cm.assets_used.getD [])) := by
  refine ⟨?_, ?_, ?_⟩
  · intro cm rf h
    simp [gatherFlags, h]
  · intro cm h
    simp [gatherFlags, h]
  · intro cm h1 h2 h3
    simp [declaredEvidence, h1, h2, h3]

theorem count_evPresence_zero (kind : String) {target : String} {es : List Entity}
    (h : ∀ L, evMissingMsg kind L ≠ target) :
    (evPresenceErrors kind es).count target = 0 :=
  count_eq_zero_of_all_ne fun s hs => by
    obtain ⟨L, rfl⟩ := mem_evPresenceErrors hs
    exact h L

theorem count_crossRef_zero (kind : String) {target : String} {es : List Entity}
    {declared : List String} (h : ∀ L E, crossRefMsg kind L E ≠ target) :
    (crossRefErrors kind es declared).count target = 0 :=
  count_eq_zero_of_all_ne fun s hs => by
    obtain ⟨L, E, rfl⟩ := mem_crossRefErrors hs
    exact h L E

/-- The violation list of a full-world validation counts a non-mismatch
message exactly as the four pure checks do. -/
theorem count_in_validate {d : Document} {wb : WorldBible} {cm : Manifest}
    (h1 : d.refusal = none) (h2 : d.world_bible = some wb)
    (h3 : d.compliance_manifest = some cm)
    (h4 : wb.isEmptyDict = false) (h5 : cm.isEmptyDict = false) (target : String)
    (hne : ∀ st ex fl, mismatchMsg st ex fl ≠ target) :
    (validate_world d).1.count target =
      (evPresenceErrors "Character" (wb.characters.getD [])).count target +
      (evPresenceErrors "Faction" (wb.factions.getD [])).count target +
      (crossRefErrors "Character" (wb.characters.getD [])
        (declaredEvidence cm)).count target +
      (crossRefErrors "Faction" (wb.factions.getD [])
        (declaredEvidence cm)).count target := by
  rw [validate_world_world h1 h2 h3 h4 h5]
  show (pureCheckErrors wb cm ++
    (if cm.commercial_confidence ≠ some (expectedConfidence cm)
     then [mismatchMsg cm.commercial_confidence (expectedConfidence cm)
             (gatherFlags cm)]
     else [])).count target = _
  rw [List.count_append]
  have htail : (if cm.commercial_confidence ≠ some (expectedConfidence cm)
      then [mismatchMsg cm.commercial_confidence (expectedConfidence cm)
              (gatherFlags cm)]
      else []).count target = 0 := by
    by_cases hm : cm.commercial_confidence ≠ some (expectedConfidence cm)
    · rw [if_pos hm]
      exact count_eq_zero_of_all_ne fun s hs => by
        rw [List.mem_singleton] at hs
        subst hs
        exact hne _ _ _
    · rw [if_neg hm]
      rfl
  rw [htail]
  unfold pureCheckErrors
  rw [List.count_append, List.count_append, List.count_append]
  omega

/-- The fallback chain of the declared-evidence set, written as the spec
states it: prefer a non-empty `evidence_used`, else the first non-empty of
`asset_clearances` then `assets_used`, else empty. -/
def claimDeclared (cm : Manifest) : List String :=
  if cm.evidence_used.getD [] ≠ [] then cm.evidence_used.getD []
  else if cm.asset_clearances.getD [] ≠ [] then
    assetEvidenceIds (cm.asset_clearances.getD [])
  else if cm.assets_used.getD [] ≠ [] then
    assetEvidenceIds (cm.assets_used.getD [])
  else []

/-- C5: in a non-refusal world document with both sections, every character
and faction lacking a non-empty evidence id yields exactly one violation
naming it by id-or-name, whatever the manifest holds: for every label the
number of `missing evidence_id` violations equals the number of entities
that lack evidence and carry that label. -/
theorem C5_evidence_presence (d : Document) (wb : WorldBible) (cm : Manifest)
    (h1 : d.refusal = none) (h2 : d.world_bible = some wb)
    (h3 : d.compliance_manifest = some cm)
    (h4 : wb.isEmptyDict = false) (h5 : cm.isEmptyDict = false) (L : String) :
    ((validate_world d).1.count (evMissingMsg "Character" L) =
      ((wb.characters.getD []).filter fun e =>
        !(truthyStr e.evidence_id).isSome && (entityLabel e == L)).length) ∧
    ((validate_world d).1.count (evMissingMsg "Faction" L) =
      ((wb.factions.getD []).filter fun e =>
        !(truthyStr e.evidence_id).isSome && (entityLabel e == L)).length) := by
  have hCne : ∀ st ex fl, mismatchMsg st ex fl ≠ evMissingMsg "Character" L :=
    fun st ex fl => str_ne_of_head (by
      rw [mismatchMsg_head, evMissingMsg_head _ _ (rfl :
        "Character".data = 'C' :: "haracter".data)]
      decide)
  have hFne : ∀ st ex fl, mismatchMsg st ex fl ≠ evMissingMsg "Faction" L :=
    fun st ex fl => str_ne_of_head (by
      rw [mismatchMsg_head, evMissingMsg_head _ _ (rfl :
        "Faction".data = 'F' :: "action".data)]
      decide)
  constructor
  · rw [count_in_validate h1 h2 h3 h4 h5 _ hCne]
    rw [count_evPresence_zero "Faction" (fun L' => str_ne_of_head (by
      rw [evMissingMsg_head _ _ (rfl : "Faction".data = 'F' :: "action".data),
        evMissingMsg_head _ _ (rfl : "Character".data = 'C' :: "haracter".data)]
      decide))]
    rw [count_crossRef_zero "Character" (fun L' E => str_ne_of_last (by
      rw [crossRefMsg_last, evMissingMsg_last]
      decide))]
    rw [count_crossRef_zero "Faction" (fun L' E => str_ne_of_last (by
      rw [crossRefMsg_last, evMissingMsg_last]
      decide))]
    rw [count_evPresenceErrors]
    omega
  · rw [count_in_validate h1 h2 h3 h4 h5 _ hFne]
    rw [count_evPresence_zero "Character" (fun L' => str_ne_of_head (by
      rw [evMissingMsg_head _ _ (rfl : "Character".data = 'C' :: "haracter".data),
        evMissingMsg_head _ _ (rfl : "Faction".data = 'F' :: "action".data)]
      decide))]
    rw [count_crossRef_zero "Character" (fun L' E => str_ne_of_last (by
      rw [crossRefMsg_last, evMissingMsg_last]
      decide))]
    rw [count_crossRef_zero "Faction" (fun L' E => str_ne_of_last (by
      rw [crossRefMsg_last, evMissingMsg_last]
      decide))]
    rw [count_evPresenceErrors]
    omega

/-- C6: the declared evidence set follows the stated fallback chain
(`evidence_used` preferred, else first non-empty of `asset_clearances` then
`assets_used`, extracting asset evidence ids — in particular non-empty
`asset_clearances` with no `evidence_used` is used, not left empty), and
every character or faction whose non-empty evidence id is outside the
declared set yields exactly one violation quoting its label and the id. -/
theorem C6_crossref_fallback :
    (∀ cm, declaredEvidence cm = claimDeclared cm) ∧
    (∀ d wb cm, d.refusal = none → d.world_bible = some wb →
      d.compliance_manifest = some cm → wb.isEmptyDict = false →
      cm.isEmptyDict = false → ∀ e E, e ∈ wb.characters.getD [] →
      truthyStr e.evidence_id = some E → E ∉ declaredEvidence cm →
      crossRefMsg "Character" (entityLabel e) E ∈ (validate_world d).1 ∧
      (validate_world d).1.count (crossRefMsg "Character" (entityLabel e) E) =
        ((wb.characters.getD []).filter fun e2 =>
          crossRefCheck "Character" (declaredEvidence cm) e2 ==
            some (crossRefMsg "Character" (entityLabel e) E)).length) ∧
    (∀ d wb cm, d.refusal = none → d.world_bible = some wb →
      d.compliance_manifest = some cm → wb.isEmptyDict = false →
      cm.isEmptyDict = false → ∀ e E, e ∈ wb.factions.getD [] →
      truthyStr e.evidence_id = some E → E ∉ declaredEvidence cm →
      crossRefMsg "Faction" (entityLabel e) E ∈ (validate_world d).1 ∧
      (validate_world d).1.count (crossRefMsg "Faction" (entityLabel e) E) =
        ((wb.factions.getD []).filter fun e2 =>
          crossRefCheck "Faction" (declaredEvidence cm) e2 ==
            some (crossRefMsg "Faction" (entityLabel e) E)).length) := by
  refine ⟨?_, ?_, ?_⟩
  · intro cm
    unfold declaredEvidence claimDeclared
    by_cases hr : cm.evidence_used.getD [] = []
    · by_cases hac : cm.asset_clearances.getD [] = []
      · by_cases hau : cm.assets_used.getD [] = []
        · simp [hr, hac, hau]
        · simp [hr, hac, hau]
      · simp [hr, hac]
    · simp [hr]
  · intro d wb cm h1 h2 h3 h4 h5 e E he hE hnd
    have hcheck : crossRefCheck "Character" (declaredEvidence cm) e =
        some (crossRefMsg "Character" (entityLabel e) E) := by
      unfold crossRefCheck
      rw [hE]
      show (if E ∈ declaredEvidence cm then none
            else some (crossRefMsg "Character" (entityLabel e) E)) = _
      rw [if_neg hnd]
    constructor
    · rw [validate_world_world h1 h2 h3 h4 h5]
      show _ ∈ pureCheckErrors wb cm ++ _
      apply List.mem_append.mpr
      left
      unfold pureCheckErrors
      apply List.mem_append.mpr
      left
      apply List.mem_append.mpr
      right
      exact List.mem_filterMap.mpr ⟨e, he, hcheck⟩
    · rw [count_in_validate h1 h2 h3 h4 h5 _ (fun st ex fl => str_ne_of_head (by
        rw [mismatchMsg_head, crossRefMsg_head _ _ _ (rfl :
          "Character".data = 'C' :: "haracter".data)]
        decide))]
      rw [count_evPresence_zero "Character" (fun L' => str_ne_of_last (by
        rw [evMissingMsg_last, crossRefMsg_last]
        decide))]
      rw [count_evPresence_zero "Faction" (fun L' => str_ne_of_last (by
        rw [evMissingMsg_last, crossRefMsg_last]
        decide))]
      rw [count_crossRef_zero "Faction" (fun L' E' => str_ne_of_head (by
        rw [crossRefMsg_head _ _ _ (rfl : "Faction".data = 'F' :: "action".data),
          crossRefMsg_head _ _ _ (rfl : "Character".data = 'C' :: "haracter".data)]
        decide))]
      rw [crossRefErrors, count_filterMap_msg]
      omega
  · intro d wb cm h1 h2 h3 h4 h5 e E he hE hnd
    have hcheck : crossRefCheck "Faction" (declaredEvidence cm) e =
        some (crossRefMsg "Faction" (entityLabel e) E) := by
      unfold crossRefCheck
      rw [hE]
      show (if E ∈ declaredEvidence cm then none
            else some (crossRefMsg "Faction" (entityLabel e) E)) = _
      rw [if_neg hnd]
    constructor
    · rw [validate_world_world h1 h2 h3 h4 h5]
      show _ ∈ pureCheckErrors wb cm ++ _
      apply List.mem_append.mpr
      left
      unfold pureCheckErrors
      apply List.mem_append.mpr
      right
      exact List.mem_filterMap.mpr ⟨e, he, hcheck⟩
    · rw [count_in_validate h1 h2 h3 h4 h5 _ (fun st ex fl => str_ne_of_head (by
        rw [mismatchMsg_head, crossRefMsg_head _ _ _ (rfl :
          "Faction".data = 'F' :: "action".data)]
        decide))]
      rw [count_evPresence_zero "Character" (fun L' => str_ne_of_last (by
        rw [evMissingMsg_last, crossRefMsg_last]
        decide))]
      rw [count_evPresence_zero "Faction" (fun L' => str_ne_of_last (by
        rw [evMissingMsg_last, crossRefMsg_last]
        decide))]
      rw [count_crossRef_zero "Character" (fun L' E' => str_ne_of_head (by
        rw [crossRefMsg_head _ _ _ (rfl : "Character".data = 'C' :: "haracter".data),
          crossRefMsg_head _ _ _ (rfl : "Faction".data = 'F' :: "action".data)]
        decide))]
      rw [crossRefErrors, count_filterMap_msg]
      omega

set_option maxRecDepth 16384 in
/-- C4: the chain-log decoder is total and tolerant: it is a plain function
into record lists (never raises), empty input and the literal `[]` decode to
the empty list, any tuple whose tokenized field list has fewer than 10 fields
is skipped entirely, the output never holds more records than there are
tuple substrings (malformed records degrade to partial results), and a
concrete truncated 9-field tuple yields no record. -/
theorem C4_decoder_total_and_tolerant :
    parse_cast_generation_output "" = [] ∧
    parse_cast_generation_output "[]" = [] ∧
    (∀ ts, (tupleFields ts).length < 10 → parseTuple ts = none) ∧
    (∀ s, (parse_cast_generation_output s).length ≤
      (tupleStrings (stripOuterBrackets (pyStrip s))).length) ∧
    parse_cast_generation_output
      "[(1,0xabc,0xh1,0xh2,\"cid\",[\"u\"],2,[],100)]" = [] := by
  refine ⟨rfl, rfl, ?_, ?_, ?_⟩
  · intro ts h
    simp only [parseTuple]
    rw [if_pos h]
  · intro s
    show (if pyStrip s = "" ∨ pyStrip s = "[]" then ([] : List GenRecord)
          else (tupleStrings (stripOuterBrackets (pyStrip s))).filterMap
            parseTuple).length ≤ _
    by_cases h : pyStrip s = "" ∨ pyStrip s = "[]"
    · rw [if_pos h]
      exact Nat.zero_le _
    · rw [if_neg h]
      exact List.length_filterMap_le _ _
  · decide

/-- The field-6 confidence mapping as the spec states it: parse the field as
an integer, a parse failure counts as 0, then 0 is `low`, 1 is `medium`, 2 is
`high`, and any other code passes through as its decimal string form. -/
def claimConfidenceOfField (s : String) : String :=
  match parsePyInt s with
  | none => "low"
  | some n => if n = 0 then "low" else if n = 1 then "medium"
              else if n = 2 then "high" else toString n

theorem confMap_getD_eq_claim (s : String) :
    confMap ((parsePyInt s).getD 0) = claimConfidenceOfField s := by
  unfold claimConfidenceOfField
  cases h : parsePyInt s with
  | none => rfl
  | some n =>
    show confMap n = _
    by_cases h0 : n = 0
    · subst h0; rfl
    · by_cases h1 : n = 1
      · subst h1; rfl
      · by_cases h2 : n = 2
        · subst h2; rfl
        · simp [confMap, h0, h1, h2]

set_option maxRecDepth 16384 in
/-- C9: every tuple with at least 10 tokenized fields decodes with field 6
mapped through the integer confidence-code table (default 0 on parse
failure; 0 low, 1 medium, 2 high, others passed through as strings), and the
end-to-end scenario-4 input decodes to exactly one record with confidence
`high` and the two expected universes. -/
theorem C9_confidence_code_mapping :
    (∀ ts r, parseTuple ts = some r →
      r.commercial_confidence = claimConfidenceOfField ((tupleFields ts).getD 6 "")) ∧
    (parse_cast_generation_output
        "[(1,0xabc,0xHASH1,0xHASH2,\"cid123\",[\"univ:nouns\",\"univ:mfers\"],2,[],100,1700000000)]").length
      = 1 ∧
    (parse_cast_generation_output
        "[(1,0xabc,0xHASH1,0xHASH2,\"cid123\",[\"univ:nouns\",\"univ:mfers\"],2,[],100,1700000000)]").map
      (fun r => r.commercial_confidence) = ["high"] ∧
    (parse_cast_generation_output
        "[(1,0xabc,0xHASH1,0xHASH2,\"cid123\",[\"univ:nouns\",\"univ:mfers\"],2,[],100,1700000000)]").map
      (fun r => r.universes_used) = [["univ:nouns", "univ:mfers"]] := by
  refine ⟨?_, ?_, ?_, ?_⟩
  · intro ts r h
    simp only [parseTuple] at h
    by_cases hlen : (tupleFields ts).length < 10
    · rw [if_pos hlen] at h
      cases h
    · rw [if_neg hlen] at h
      injection h with h
      subst h
      exact confMap_getD_eq_claim _
  · decide
  · decide
  · decide

/-!
Concrete example documents and witness instantiations for the hypothesised
theorems above.
-/

set_option maxRecDepth 16384

def exWB1 : WorldBible := ⟨some [⟨some "hero", none, some "evid:x", []⟩], none, []⟩

def exCM1 : Manifest :=
  ⟨some ["evid:x"], none, none, some ["meme_derivative:medium"], none,
   some "high", none, []⟩

def exDoc1 : Document := ⟨none, some exWB1, some exCM1, []⟩

theorem C1_witness : expectedConfidence exCM1 = "medium" := by
  have h := (C1_confidence_precedence exDoc1 exWB1 exCM1 rfl rfl rfl rfl rfl).1
  rw [h]
  decide

def exWB2 : WorldBible := ⟨some [⟨some "hero", none, some "evid:x", []⟩], none, []⟩

def exCM2 : Manifest :=
  ⟨some ["evid:x"], none, none, some ["meme_derivative:medium"], none,
   some "high", none, []⟩

def exDoc2 : Document := ⟨none, some exWB2, some exCM2, []⟩

theorem C2_witness :
    (validate_world exDoc2).1 =
      [mismatchMsg (some "high") "medium" ["meme_derivative:medium"]] ∧
    (validate_world exDoc2).2 =
      { exDoc2 with compliance_manifest := some (correctedManifest exCM2) } := by
  have h := C2_autocorrect_only_mutation.1 exDoc2 exWB2 exCM2 rfl rfl rfl rfl rfl
    (by decide)
  exact ⟨h.1.trans (by decide), h.2.2.1⟩

theorem C4_witness : parseTuple "(1,2)" = none :=
  C4_decoder_total_and_tolerant.2.2.1 "(1,2)" (by decide)

def exWB5 : WorldBible := ⟨some [⟨some "hero", none, none, []⟩], none, []⟩

def exCM5 : Manifest :=
  ⟨some ["evid:y"], none, none, none, none, some "high", none, []⟩

def exDoc5 : Document := ⟨none, some exWB5, some exCM5, []⟩

theorem C5_witness :
    (validate_world exDoc5).1.count (evMissingMsg "Character" "hero") = 1 := by
  have h := (C5_evidence_presence exDoc5 exWB5 exCM5 rfl rfl rfl rfl rfl "hero").1
  rw [h]
  decide

def exWB6 : WorldBible := ⟨none, some [⟨some "guild", none, some "evid:x", []⟩], []⟩

def exCM6 : Manifest :=
  ⟨none, some [⟨some "evid:y", some [], []⟩], none, some [], none,
   some "high", none, []⟩

def exDoc6 : Document := ⟨none, some exWB6, some exCM6, []⟩

theorem C6_witness :
    declaredEvidence exCM6 = ["evid:y"] ∧
    crossRefMsg "Faction" "guild" "evid:x" ∈ (validate_world exDoc6).1 ∧
    (validate_world exDoc6).1.count (crossRefMsg "Faction" "guild" "evid:x") = 1 := by
  have h := C6_crossref_fallback.2.2 exDoc6 exWB6 exCM6 rfl rfl rfl rfl rfl
    ⟨some "guild", none, some "evid:x", []⟩ "evid:x" (by decide) (by decide)
    (by decide)
  exact ⟨(C6_crossref_fallback.1 exCM6).trans (by decide), h.1,
    h.2.trans (by decide)⟩

def exDoc7 : Document := ⟨some [("reason", "gap")], none, none, []⟩

theorem C7_witness :
    (validate_world exDoc7).1 = [] ∧ (validate_world exDoc7).2 = exDoc7 := by
  have h := C7_refusal_shape_exclusivity exDoc7 rfl
  exact ⟨h.2.2 rfl rfl, h.2.1⟩

def exDoc8 : Document := ⟨none, none, none, []⟩

theorem C8_witness : validate_world exDoc8 = (["Missing world_bible"], exDoc8) :=
  (C8_missing_sections exDoc8 rfl).1 rfl

def ts0 : String := "(7,0xa,0xb,0xc,\"q\",[],3,[],10,11)"

def r0 : GenRecord := ⟨"7", "0xa", "0xb", "0xc", "q", [], "3", "10", "11"⟩

theorem C9_witness :
    r0.commercial_confidence = claimConfidenceOfField ((tupleFields ts0).getD 6 "") ∧
    r0.commercial_confidence = "3" := by
  have h := C9_confidence_code_mapping.1 ts0 r0 (by decide)
  exact ⟨h, by decide⟩

def exCM10 : Manifest :=
  ⟨none, some [], some [⟨some "evid:a", some ["trademark:high"], []⟩],
   some [], some ["meme:medium"], none, none, []⟩

theorem C10_witness :
    gatherFlags exCM10 = gatherFlags { exCM10 with risk_flags := some ["z:low"] } ∧
    gatherFlags exCM10 = [] ∧
    declaredEvidence exCM10 = ["evid:a"] := by
  refine ⟨C10_key_presence_fallbacks.1 exCM10 (some ["z:low"]) rfl, ?_, ?_⟩
  · exact (C10_key_presence_fallbacks.2.1 exCM10 rfl).trans (by decide)
  · exact (C10_key_presence_fallbacks.2.2 exCM10 rfl rfl (by decide)).trans (by decide)

end CC0
